import Mathlib

/-!
Verification of the devlib `devlib/utils/android.py` command channel,
connection manager and background-process controller.

Strings from the Python source are embedded as `List Char`.  Python's
`str.rsplit`, `str.strip`, `str.isdigit`, `str.split` and substring tests are
given executable models, and the relevant functions (`adb_shell`,
`AdbConnection.execute`, `AdbConnection._adb_root`, `AdbConnection.__init__` /
`_close`, `adb_background_shell`, `adb_get_device`) are translated as pure
functions over these models, with the external transport outcome supplied as
an explicit argument.
-/

namespace DevlibAndroid

/-- ASCII digit test; models the digit check Python's `str.isdigit` performs
on the ASCII strings produced by the remote shell. -/
def isAsciiDigit (c : Char) : Bool :=
  ('0' ≤ c) && (c ≤ '9')

/-- Models Python `str.isdigit` (restricted to ASCII content): true iff the
string is non-empty and every character is a digit. -/
def pyIsDigit (s : List Char) : Bool :=
  (!s.isEmpty) && s.all isAsciiDigit

/-- Whitespace characters stripped by Python `str.strip`. -/
def pyIsSpace (c : Char) : Bool :=
  (c = ' ') || (c = '\t') || (c = '\n') || (c = '\x0d') || (c = '\x0b') || (c = '\x0c')

/-- Models Python `str.strip` (no argument): drop whitespace from both ends. -/
def pyStrip (s : List Char) : List Char :=
  ((s.dropWhile pyIsSpace).reverse.dropWhile pyIsSpace).reverse

/-- Value of Python `int(s)` on a string of ASCII digits. -/
def digitsToNat (s : List Char) : Nat :=
  s.foldl (fun a c => 10 * a + (c.toNat - 48)) 0

/-- Holds of `pat` and `s` when `pat` is an initial segment of `s`. -/
def startsWithSeq : List Char → List Char → Bool
  | [], _ => true
  | _ :: _, [] => false
  | p :: ps, c :: cs => (p = c) && startsWithSeq ps cs

/-- Holds of `pat` and `s` when `pat` occurs as a contiguous substring of
`s`; models Python's `pat in s`. -/
def containsSub (pat : List Char) : List Char → Bool
  | [] => startsWithSeq pat []
  | c :: cs => startsWithSeq pat (c :: cs) || containsSub pat cs

/-- Models `raw.replace('\r\n', '\n').replace('\r', '\n')` from `adb_shell`:
normalize CRLF and lone CR to LF. -/
def normalizeNewlines : List Char → List Char
  | [] => []
  | '\x0d' :: '\n' :: rest => '\n' :: normalizeNewlines rest
  | '\x0d' :: rest => '\n' :: normalizeNewlines rest
  | c :: rest => c :: normalizeNewlines rest

/-- Split a list at the first occurrence of `sep`, if any. -/
def splitLeft1 (sep : Char) : List Char → Option (List Char × List Char)
  | [] => none
  | c :: rest =>
    if c = sep then some ([], rest)
    else
      match splitLeft1 sep rest with
      | none => none
      | some (a, b) => some (c :: a, b)

/-- Auxiliary for `pyRsplit`: operates on the reversed string, producing the
reversed pieces in reversed order. -/
def rsplitAux (sep : Char) : Nat → List Char → List (List Char)
  | 0, s => [s]
  | n + 1, s =>
    match splitLeft1 sep s with
    | none => [s]
    | some (a, b) => a :: rsplitAux sep n b

/-- Models Python `s.rsplit(sep, n)`: split on `sep` from the right at most
`n` times. -/
def pyRsplit (sep : Char) (n : Nat) (s : List Char) : List (List Char) :=
  ((rsplitAux sep n s.reverse).map List.reverse).reverse

/-- The sentinel exit-code string `'969696'` that `adb_shell` substitutes
when the raw capture is empty. -/
def emptyCaptureSentinel : List Char := "969696".toList

/-- The output/exit-code recovery of `adb_shell` (android.py lines 617-625):
on a non-empty capture, normalize newlines and `rsplit('\n', 2)` into
`(output, exit_code, _)`; if that unpacking fails (`ValueError`), retry with
`rsplit('\n', 1)` into `(exit_code, _)` with empty output; if that also
fails, the `ValueError` escapes (`none`).  An empty capture yields empty
output and the sentinel exit code. -/
def parseRaw (raw : List Char) : Option (List Char × List Char) :=
  if raw.isEmpty then some ([], emptyCaptureSentinel)
  else
    match pyRsplit '\n' 2 (normalizeNewlines raw) with
    | [o, e, _] => some (o, e)
    | _ =>
      match pyRsplit '\n' 1 (normalizeNewlines raw) with
      | [e, _] => some ([], e)
      | _ => none

/-- The pattern of `AM_START_ERROR = re.compile(r"Error: Activity.*")`:
`findall` returns a non-empty list iff this literal occurs in the output
(`.*` matches anything, including the empty string). -/
def amStartPattern : List Char := "Error: Activity".toList

/-- Test that `AM_START_ERROR.findall(output)` is non-empty. -/
def hasAmStartError (out : List Char) : Bool := containsSub amStartPattern out

/-- Outcome of the single transport invocation `check_output(parts, ...)`
inside `adb_shell`: either the adb host command itself failed
(`subprocess.CalledProcessError`), or it captured `(raw_output, error)`. -/
inductive TransportResult
  | failed
  | captured (raw err : List Char)

/-- Outcome of `adb_shell` (android.py lines 597-653).  `processExit`
models the `subprocess.CalledProcessError(exit_code, command, output, error)`
raised on a numeric non-zero exit code; `stable` models `TargetStableError`;
`transient` models `TargetTransientError`; `pyError` models the unhandled
`ValueError` on a non-empty capture containing no newline at all. -/
inductive ShellOutcome
  | ok (result : List Char)
  | processExit (code : Nat) (output err : List Char)
  | stable
  | transient
  | pyError
deriving DecidableEq

/-- Models the expression `'\n'.join(x for x in (output, error) if x)` from
`adb_shell`'s return. -/
def joinOutErr (output err : List Char) : List Char :=
  if output.isEmpty then err
  else if err.isEmpty then output
  else output ++ '\n' :: err

/-- Model of `adb_shell`: transport failure raises `TargetStableError`;
otherwise the capture is parsed by `parseRaw` and, under `check_exit_code`,
classified exactly as in android.py lines 627-651. -/
def adb_shell (tr : TransportResult) (check_exit_code : Bool) : ShellOutcome :=
  match tr with
  | .failed => .stable
  | .captured raw err =>
    match parseRaw raw with
    | none => .pyError
    | some (output, exitStr) =>
      if check_exit_code then
        let ec := pyStrip exitStr
        if pyIsDigit ec then
          if digitsToNat ec ≠ 0 then .processExit (digitsToNat ec) output err
          else if hasAmStartError output then .stable
          else .ok (joinOutErr output err)
        else
          if hasAmStartError output then .stable
          else .transient
      else .ok (joinOutErr output err)

/-- Outcome of `AdbConnection.execute` (android.py lines 362-381) after its
reclassification of `adb_shell` failures. -/
inductive ExecOutcome
  | ok (result : List Char)
  | transientCPE (code : Nat) (output err : List Char)
  | stableCPE (code : Nat) (output err : List Char)
  | stableErr
  | transientErr
  | pyError
deriving DecidableEq

/-- Model of `AdbConnection.execute`.  The devlib exception classes live in
`devlib/exception.py`, which is not part of the analysed source; their
relationship is modelled from the spec: transient remote errors and stable
remote errors are disjoint classes (spec section 7), so the
`except TargetStableError` clause does not intercept a `TargetTransientError`
coming out of `adb_shell`, and `TargetTransientCalledProcessError` /
`TargetStableCalledProcessError` are the transient/stable variants of the
process-exit error. -/
def execute (tr : TransportResult) (check_exit_code will_succeed : Bool) : ExecOutcome :=
  match adb_shell tr check_exit_code with
  | .ok r => .ok r
  | .processExit c o e =>
      if will_succeed then .transientCPE c o e else .stableCPE c o e
  | .stable => if will_succeed then .transientErr else .stableErr
  | .transient => .transientErr
  | .pyError => .pyError

/-- The execute outcome is a success. -/
def ExecOutcome.isOk : ExecOutcome → Bool
  | .ok _ => true
  | _ => false

/-- The execute outcome is a stable-class error (spec section 7 taxonomy). -/
def ExecOutcome.isStableClass : ExecOutcome → Bool
  | .stableCPE _ _ _ => true
  | .stableErr => true
  | _ => false

/-- The execute outcome is a transient-class error. -/
def ExecOutcome.isTransientClass : ExecOutcome → Bool
  | .transientCPE _ _ _ => true
  | .transientErr => true
  | _ => false

theorem splitLeft1_not_mem_append (sep : Char) (a b : List Char) (ha : sep ∉ a) :
    splitLeft1 sep (a ++ sep :: b) = some (a, b) := by
  induction a with
  | nil => simp [splitLeft1]
  | cons c cs ih =>
    have hc : c ≠ sep := fun h => ha (h ▸ List.mem_cons_self c cs)
    have hcs : sep ∉ cs := fun h => ha (List.mem_cons_of_mem c h)
    simp [splitLeft1, hc, ih hcs]

theorem pyRsplit_two_newlines (O E : List Char) (hE : '\n' ∉ E) :
    pyRsplit '\n' 2 (O ++ '\n' :: (E ++ ['\n'])) = [O, E, []] := by
  have hrev : (O ++ '\n' :: (E ++ ['\n'])).reverse
      = '\n' :: (E.reverse ++ '\n' :: O.reverse) := by
    simp
  have hErev : '\n' ∉ E.reverse := by simpa using hE
  unfold pyRsplit
  rw [hrev]
  show ((rsplitAux '\n' 2 ('\n' :: (E.reverse ++ '\n' :: O.reverse))).map
      List.reverse).reverse = [O, E, []]
  rw [show rsplitAux '\n' 2 ('\n' :: (E.reverse ++ '\n' :: O.reverse))
      = [] :: rsplitAux '\n' 1 (E.reverse ++ '\n' :: O.reverse) by
    simp [rsplitAux, splitLeft1]]
  rw [show rsplitAux '\n' 1 (E.reverse ++ '\n' :: O.reverse)
      = E.reverse :: rsplitAux '\n' 0 O.reverse by
    simp [rsplitAux, splitLeft1_not_mem_append '\n' E.reverse O.reverse hErev]]
  simp [rsplitAux]

theorem normalizeNewlines_nil : normalizeNewlines [] = [] := rfl

/-- General round-trip of the `adb_shell` trailer parse: if the normalized
capture is exactly `output ⧺ "\n" ⧺ exitstring ⧺ "\n"` with no newline inside
the exit string, parsing recovers `(output, exitstring)` exactly, even when
`output` itself contains embedded newlines or is empty. -/
theorem parseRaw_roundtrip (raw O E : List Char) (hE : '\n' ∉ E)
    (h : normalizeNewlines raw = O ++ '\n' :: (E ++ ['\n'])) :
    parseRaw raw = some (O, E) := by
  have hne : raw.isEmpty = false := by
    cases raw with
    | nil => rw [normalizeNewlines_nil] at h; exact absurd h.symm (by simp)
    | cons c cs => rfl
  unfold parseRaw
  rw [hne, h, pyRsplit_two_newlines O E hE]
  simp

theorem repr_le_255_no_newline : ∀ c < 256, '\n' ∉ (Nat.repr c).toList := by
  set_option maxRecDepth 4000 in decide

theorem digitsToNat_repr_le_255 : ∀ c < 256, digitsToNat (Nat.repr c).toList = c := by
  set_option maxRecDepth 4000 in decide

/-- C1 (amended): for every output `O` and exit code `c ≤ 255`, a raw capture
that normalizes to exactly `O ⧺ "\n" ⧺ decimal(c) ⧺ "\n"` (so CRLF/CR line
endings are allowed in the capture) parses back to exactly `(O, c)`; but the
round-trip does not survive extra trailing blank lines (see the
counterexample). -/
theorem exit_wrapper_roundtrip (raw O : List Char) (c : Nat) (hc : c ≤ 255)
    (h : normalizeNewlines raw = O ++ '\n' :: ((Nat.repr c).toList ++ ['\n'])) :
    parseRaw raw = some (O, (Nat.repr c).toList)
      ∧ digitsToNat (Nat.repr c).toList = c := by
  have hc' : c < 256 := Nat.lt_succ_of_le hc
  exact ⟨parseRaw_roundtrip raw O (Nat.repr c).toList
      (repr_le_255_no_newline c hc') h,
    digitsToNat_repr_le_255 c hc'⟩

/-- Witness for C1's amended theorem at `O = "out1\nout2"`, `c = 0`, with a
CRLF-rendered capture. -/
theorem exit_wrapper_roundtrip_witness :
    normalizeNewlines "out1\r\nout2\r\n0\r\n".toList
        = "out1\nout2".toList ++ '\n' :: ((Nat.repr 0).toList ++ ['\n'])
      ∧ parseRaw "out1\r\nout2\r\n0\r\n".toList
        = some ("out1\nout2".toList, (Nat.repr 0).toList) :=
  ⟨by decide,
    (exit_wrapper_roundtrip "out1\r\nout2\r\n0\r\n".toList "out1\nout2".toList 0
      (by decide) (by decide)).1⟩

/-- C1 (counterexample): the nominal capture for output `"hello"` and exit
code `0` followed by one extra trailing blank line does not parse back to
`("hello", "0")`: the parse instead returns output `"hello\n0"` and an empty
exit-code string. -/
theorem exit_wrapper_roundtrip_cex :
    parseRaw ("hello".toList ++ '\n' :: ((Nat.repr 0).toList ++ ['\n']) ++ ['\n'])
        ≠ some ("hello".toList, (Nat.repr 0).toList)
      ∧ parseRaw ("hello".toList ++ '\n' :: ((Nat.repr 0).toList ++ ['\n']) ++ ['\n'])
        = some ("hello\n0".toList, []) := by
  exact ⟨by decide, by decide⟩

/-- C4 (counterexample): an empty raw capture is given the numeric sentinel
exit code `969696`, so under `check_exit_code` it raises the process-exit
`subprocess.CalledProcessError` — which `execute` without the hint turns into
the stable `TargetStableCalledProcessError` — and not a transient error; and
a non-numeric exit code whose output matches the activity pattern raises a
stable error, not a transient one. -/
theorem undetermined_exit_cex :
    adb_shell (.captured [] []) true = .processExit 969696 [] []
      ∧ execute (.captured [] []) true false = .stableCPE 969696 [] []
      ∧ adb_shell (.captured [] []) true ≠ .transient
      ∧ adb_shell (.captured "Error: Activity\nfoo\nbar".toList []) true = .stable := by
  refine ⟨by decide, by decide, by decide, by decide⟩

/-- C4 (amended): an empty capture yields the sentinel numeric exit code
`969696`, raising a process-exit error with that code; a genuinely
non-numeric exit-code trailer raises a transient error when the output does
not match the activity pattern, and a stable error when it does. -/
theorem undetermined_exit_classification (raw err out ec : List Char)
    (h : parseRaw raw = some (out, ec)) (hnd : pyIsDigit (pyStrip ec) = false) :
    (hasAmStartError out = false → adb_shell (.captured raw err) true = .transient)
      ∧ (hasAmStartError out = true → adb_shell (.captured raw err) true = .stable)
      ∧ (∀ e, adb_shell (.captured [] e) true = .processExit 969696 [] e) := by
  refine ⟨?_, ?_, fun e => by simp [adb_shell, parseRaw, emptyCaptureSentinel,
    pyStrip, pyIsSpace, pyIsDigit, isAsciiDigit, digitsToNat]⟩ <;>
    intro ham <;> simp [adb_shell, h, hnd, ham]

/-- Witness for C4's amended theorem: capture `"x\ny\n"` parses to output
`"x"` with non-numeric exit string `"y"` and is classified transient. -/
theorem undetermined_exit_classification_witness :
    parseRaw "x\ny\n".toList = some ("x".toList, "y".toList)
      ∧ adb_shell (.captured "x\ny\n".toList []) true = .transient :=
  ⟨by decide,
    (undetermined_exit_classification "x\ny\n".toList [] "x".toList "y".toList
      (by decide) (by decide)).1 (by decide)⟩

/-- C7: under `check_exit_code`, a numeric non-zero exit code makes `execute`
(without the will-succeed hint) raise the stable process-exit error carrying
that numeric code plus the captured output and error streams; and a numeric
zero exit code whose output matches the activity-failed-to-start pattern
raises a stable error instead of succeeding. -/
theorem nonzero_exit_process_error (raw err out ec : List Char)
    (h : parseRaw raw = some (out, ec)) (hd : pyIsDigit (pyStrip ec) = true) :
    (digitsToNat (pyStrip ec) ≠ 0 →
      execute (.captured raw err) true false
        = .stableCPE (digitsToNat (pyStrip ec)) out err)
      ∧ (digitsToNat (pyStrip ec) = 0 → hasAmStartError out = true →
        execute (.captured raw err) true false = .stableErr) := by
  constructor
  · intro hz
    simp [execute, adb_shell, h, hd, hz]
  · intro hz ham
    simp [execute, adb_shell, h, hd, hz, ham]

/-- Witness for C7: the capture produced by `execute("exit 3")` — empty
output, trailer `3` — raises the stable process-exit error with code `3`. -/
theorem nonzero_exit_process_error_witness :
    execute (.captured "\n3\n".toList []) true false = .stableCPE 3 [] [] := by
  have h := (nonzero_exit_process_error "\n3\n".toList [] [] "3".toList
    (by decide) (by decide)).1 (by decide)
  simpa using h

/-- C8: the caller's `will_succeed` hint (1) never changes whether `execute`
succeeds — every failing case still raises; (2) when set, no stable-class
error can escape (normally-stable failures are downgraded to transient);
(3) never changes an already-transient outcome; (4) in particular maps every
stable-class failure to a transient-class one. -/
theorem will_succeed_reclassification (tr : TransportResult) (cec : Bool) :
    ((execute tr cec true).isOk = (execute tr cec false).isOk)
      ∧ ((execute tr cec true).isStableClass = false)
      ∧ ((execute tr cec false).isTransientClass = true →
          execute tr cec true = execute tr cec false)
      ∧ ((execute tr cec false).isStableClass = true →
          (execute tr cec true).isTransientClass = true) := by
  unfold execute
  cases h : adb_shell tr cec <;>
    simp [ExecOutcome.isOk, ExecOutcome.isStableClass, ExecOutcome.isTransientClass]

/-- Witness for C8 at the `exit 1` capture: without the hint the failure is
stable-class, with the hint it is transient-class (still an error). -/
theorem will_succeed_reclassification_witness :
    (execute (.captured "\n1\n".toList []) true false).isStableClass = true
      ∧ (execute (.captured "\n1\n".toList []) true true).isTransientClass = true
      ∧ (execute (.captured "\n1\n".toList []) true true).isOk = false :=
  ⟨by decide,
    (will_succeed_reclassification (.captured "\n1\n".toList []) true).2.2.2
      (by decide),
    by decide⟩

/-- Pointwise update of an integer-valued table (`nr_active[d] = v`). -/
def fupd (c : Nat → Int) (d : Nat) (v : Int) : Nat → Int :=
  fun x => if x = d then v else c x

/-- The process-wide state shared by all `AdbConnection` instances: the
`active_connections` defaultdict (device identity, modelled as `Nat`, to
refcount; a missing key reads as `0`) plus, for observation, how many times
`adb_disconnect` has been invoked for each device. -/
structure ConnState where
  counts : Nat → Int
  disconnects : Nat → Nat

/-- Construction (`AdbConnection.__init__`, lines 309-311) or release
(`AdbConnection._close`, lines 405-416) of one Connection to device `d`. -/
inductive ConnEvent
  | openC (d : Nat)
  | closeC (d : Nat)
deriving DecidableEq

/-- One lifecycle step: `__init__` does `nr_active[device] += 1`; `_close`
does `nr_active[device] -= 1`, and when the result is `<= 0` deletes the
entry (a deleted defaultdict key reads as `0`) and invokes
`adb_disconnect`. -/
def applyEvent (s : ConnState) : ConnEvent → ConnState
  | .openC d => { s with counts := fupd s.counts d (s.counts d + 1) }
  | .closeC d =>
    let n := s.counts d - 1
    if n ≤ 0 then
      { counts := fupd s.counts d 0,
        disconnects := fun x => if x = d then s.disconnects d + 1 else s.disconnects x }
    else { s with counts := fupd s.counts d n }

/-- Initial shared state: empty defaultdicts. -/
def initConnState : ConnState := ⟨fun _ => 0, fun _ => 0⟩

/-- Run a trace of constructions/releases against the shared state. -/
def runTrace (t : List ConnEvent) : ConnState :=
  t.foldl applyEvent initConnState

/-- Number of Connections constructed against `d` in the trace. -/
def opensFor (d : Nat) (t : List ConnEvent) : Nat :=
  t.countP (fun e => e = ConnEvent.openC d)

/-- Number of Connections released against `d` in the trace. -/
def closesFor (d : Nat) (t : List ConnEvent) : Nat :=
  t.countP (fun e => e = ConnEvent.closeC d)

/-- A trace is well formed from table `c` when every release matches a
Connection that is currently open (each `closeC d` sees a count `≥ 1`). -/
def validFrom (c : Nat → Int) : List ConnEvent → Bool
  | [] => true
  | .openC d :: r => validFrom (fupd c d (c d + 1)) r
  | .closeC d :: r => (1 ≤ c d) && validFrom (fupd c d (c d - 1)) r

/-- A well-formed trace from the initial (empty) state. -/
def validTrace (t : List ConnEvent) : Bool :=
  validFrom (fun _ => 0) t

theorem applyEvent_openC (s : ConnState) (d : Nat) :
    applyEvent s (.openC d)
      = { s with counts := fupd s.counts d (s.counts d + 1) } := rfl

theorem applyEvent_closeC_of_one (s : ConnState) (d : Nat) (h : s.counts d = 1) :
    applyEvent s (.closeC d)
      = { counts := fupd s.counts d (s.counts d - 1),
          disconnects := fun x => if x = d then s.disconnects d + 1 else s.disconnects x } := by
  simp [applyEvent, h]

theorem applyEvent_closeC_of_ge_two (s : ConnState) (d : Nat) (h : 2 ≤ s.counts d) :
    applyEvent s (.closeC d)
      = { s with counts := fupd s.counts d (s.counts d - 1) } := by
  have : ¬ (s.counts d - 1 ≤ 0) := by omega
  simp [applyEvent, this]

/-- Under validity, a release always just decrements the released device's
count (deletion of the entry coincides with storing `0`). -/
theorem applyEvent_closeC_counts (s : ConnState) (d : Nat) (h : 1 ≤ s.counts d) :
    (applyEvent s (.closeC d)).counts = fupd s.counts d (s.counts d - 1) := by
  rcases lt_or_le (s.counts d) 2 with h2 | h2
  · have h1 : s.counts d = 1 := by omega
    rw [applyEvent_closeC_of_one s d h1]
  · rw [applyEvent_closeC_of_ge_two s d h2]

/-- The refcount table after a valid trace: each device's count is the
number of opens minus the number of closes for that device. -/
theorem foldl_counts (t : List ConnEvent) :
    ∀ (c : Nat → Int) (dis : Nat → Nat) (d : Nat), validFrom c t = true →
      (t.foldl applyEvent ⟨c, dis⟩).counts d
        = c d + opensFor d t - closesFor d t := by
  induction t with
  | nil => intro c dis d _; simp [opensFor, closesFor]
  | cons e r ih =>
    intro c dis d hv
    cases e with
    | openC x =>
      have hv' : validFrom (fupd c x (c x + 1)) r = true := by
        simpa [validFrom] using hv
      have := ih (fupd c x (c x + 1)) dis d hv'
      rw [List.foldl_cons, applyEvent_openC]
      rw [show ({ counts := fupd c x (c x + 1), disconnects := dis } : ConnState)
          = ⟨fupd c x (c x + 1), dis⟩ from rfl] at this ⊢
      rw [this]
      by_cases hxd : d = x
      · subst hxd
        simp [fupd, opensFor, closesFor, List.countP_cons]
        omega
      · have : fupd c x (c x + 1) d = c d := by simp [fupd, hxd]
        rw [this]
        simp [opensFor, closesFor, List.countP_cons, hxd]
        intro h; exact absurd h.symm hxd
    | closeC x =>
      have h1 : 1 ≤ c x := by
        have := hv; simp [validFrom, Bool.and_eq_true] at this; exact this.1
      have hv' : validFrom (fupd c x (c x - 1)) r = true := by
        have := hv; simp [validFrom, Bool.and_eq_true] at this; exact this.2
      rw [List.foldl_cons]
      have hs : (applyEvent ⟨c, dis⟩ (.closeC x)).counts = fupd c x (c x - 1) :=
        applyEvent_closeC_counts ⟨c, dis⟩ x h1
      have hrw : applyEvent ⟨c, dis⟩ (.closeC x)
          = ⟨fupd c x (c x - 1), (applyEvent ⟨c, dis⟩ (.closeC x)).disconnects⟩ := by
        cases hA : applyEvent ⟨c, dis⟩ (.closeC x) with
        | mk cc dd => simp at hs ⊢; rw [← hs, hA]
      rw [hrw]
      have := ih (fupd c x (c x - 1))
        (applyEvent ⟨c, dis⟩ (.closeC x)).disconnects d hv'
      rw [this]
      by_cases hxd : d = x
      · subst hxd
        simp [fupd, opensFor, closesFor, List.countP_cons]
        omega
      · have : fupd c x (c x - 1) d = c d := by simp [fupd, hxd]
        rw [this]
        simp [opensFor, closesFor, List.countP_cons, hxd]
        intro h; exact absurd h.symm hxd

theorem applyEvent_disconnects_openC (s : ConnState) (x d : Nat) :
    (applyEvent s (.openC x)).disconnects d = s.disconnects d := rfl

theorem applyEvent_disconnects_closeC_ne (s : ConnState) (x d : Nat) (h : d ≠ x) :
    (applyEvent s (.closeC x)).disconnects d = s.disconnects d := by
  by_cases hn : s.counts x - 1 ≤ 0 <;> simp [applyEvent, hn, h]

/-- Releases of other Connections never invoke `adb_disconnect` for `d`. -/
theorem foldl_disconnects_no_close (t : List ConnEvent) :
    ∀ (s : ConnState) (d : Nat), ConnEvent.closeC d ∉ t →
      (t.foldl applyEvent s).disconnects d = s.disconnects d := by
  induction t with
  | nil => intro s d _; rfl
  | cons e r ih =>
    intro s d hmem
    have hr : ConnEvent.closeC d ∉ r := fun h => hmem (List.mem_cons_of_mem e h)
    rw [List.foldl_cons, ih _ d hr]
    cases e with
    | openC x => exact applyEvent_disconnects_openC s x d
    | closeC x =>
      have hdx : d ≠ x := fun h => hmem (by rw [h]; exact List.mem_cons_self _ _)
      exact applyEvent_disconnects_closeC_ne s x d hdx

/-- With no construction for `d` present, the number of releases for `d` in a
valid trace cannot exceed the entry count `d` started with. -/
theorem closes_le_of_no_open (t : List ConnEvent) :
    ∀ (c : Nat → Int) (d : Nat), validFrom c t = true → ConnEvent.openC d ∉ t →
      0 ≤ c d → (closesFor d t : Int) ≤ c d := by
  induction t with
  | nil => intro c d _ _ h0; simpa [closesFor] using h0
  | cons e r ih =>
    intro c d hv hmem h0
    have hr : ConnEvent.openC d ∉ r := fun h => hmem (List.mem_cons_of_mem e h)
    cases e with
    | openC x =>
      have hdx : d ≠ x := fun h => hmem (by rw [h]; exact List.mem_cons_self _ _)
      have hv' : validFrom (fupd c x (c x + 1)) r = true := by
        simpa [validFrom] using hv
      have h0' : 0 ≤ fupd c x (c x + 1) d := by simpa [fupd, hdx] using h0
      have := ih (fupd c x (c x + 1)) d hv' hr h0'
      rw [fupd, if_neg hdx] at this
      simpa [closesFor, List.countP_cons] using this
    | closeC x =>
      have h1 : 1 ≤ c x := by
        have := hv; simp [validFrom, Bool.and_eq_true] at this; exact this.1
      have hv' : validFrom (fupd c x (c x - 1)) r = true := by
        have := hv; simp [validFrom, Bool.and_eq_true] at this; exact this.2
      by_cases hdx : d = x
      · subst hdx
        have h0' : 0 ≤ fupd c d (c d - 1) d := by simp [fupd]; omega
        have := ih (fupd c d (c d - 1)) d hv' hr h0'
        rw [fupd, if_pos rfl] at this
        have hcons : closesFor d (ConnEvent.closeC d :: r) = closesFor d r + 1 := by
          simp [closesFor, List.countP_cons]
        rw [hcons]
        push_cast
        omega
      · have h0' : 0 ≤ fupd c x (c x - 1) d := by simpa [fupd, hdx] using h0
        have := ih (fupd c x (c x - 1)) d hv' hr h0'
        rw [fupd, if_neg hdx] at this
        have hne : ¬ (ConnEvent.closeC x = ConnEvent.closeC d) := by
          intro h; exact hdx (by cases h; rfl)
        simpa [closesFor, List.countP_cons, hne] using this

/-- Draining lemma: run a valid trace containing no construction for `d`
from a state where `d`'s count is `k`; `adb_disconnect` for `d` fires exactly
once iff the trace releases all `k` (with `k ≥ 1`), and never otherwise. -/
theorem foldl_drain (t : List ConnEvent) :
    ∀ (s : ConnState) (d : Nat), validFrom s.counts t = true →
      ConnEvent.openC d ∉ t →
      (t.foldl applyEvent s).disconnects d
        = s.disconnects d
          + (if (closesFor d t : Int) = s.counts d ∧ 1 ≤ s.counts d then 1 else 0) := by
  induction t with
  | nil =>
    intro s d _ _
    rw [List.foldl_nil,
      show closesFor d ([] : List ConnEvent) = 0 from rfl,
      if_neg (by push_cast; omega :
        ¬ (((0 : Nat) : Int) = s.counts d ∧ 1 ≤ s.counts d))]
    simp
  | cons e r ih =>
    intro s d hv hmem
    have hr : ConnEvent.openC d ∉ r := fun h => hmem (List.mem_cons_of_mem e h)
    cases e with
    | openC x =>
      have hdx : d ≠ x := fun h => hmem (by rw [h]; exact List.mem_cons_self _ _)
      have hv' : validFrom (applyEvent s (.openC x)).counts r = true := by
        rw [applyEvent_openC]
        simpa [validFrom] using hv
      rw [List.foldl_cons, ih _ d hv' hr]
      rw [applyEvent_openC]
      have hcnt : (fupd s.counts x (s.counts x + 1)) d = s.counts d := by
        simp [fupd, hdx]
      have hne : ¬ (ConnEvent.openC x = ConnEvent.closeC d) := by intro h; cases h
      simp only [closesFor, List.countP_cons]
      simp [hcnt, hne, closesFor]
    | closeC x =>
      have h1 : 1 ≤ s.counts x := by
        have := hv; simp [validFrom, Bool.and_eq_true] at this; exact this.1
      have hvr : validFrom (fupd s.counts x (s.counts x - 1)) r = true := by
        have := hv; simp [validFrom, Bool.and_eq_true] at this; exact this.2
      have hv' : validFrom (applyEvent s (.closeC x)).counts r = true := by
        rw [applyEvent_closeC_counts s x h1]; exact hvr
      rw [List.foldl_cons, ih _ d hv' hr]
      have hcntc : (applyEvent s (.closeC x)).counts = fupd s.counts x (s.counts x - 1) :=
        applyEvent_closeC_counts s x h1
      by_cases hdx : d = x
      · subst hdx
        have hcons : closesFor d (ConnEvent.closeC d :: r) = closesFor d r + 1 := by
          simp [closesFor, List.countP_cons]
        have hfu : (applyEvent s (.closeC d)).counts d = s.counts d - 1 := by
          rw [hcntc]; simp [fupd]
        rcases lt_or_le (s.counts d) 2 with h2 | h2
        · have hone : s.counts d = 1 := by omega
          have hcl0 : closesFor d r = 0 := by
            have hle := closes_le_of_no_open r (fupd s.counts d (s.counts d - 1)) d
              hvr hr (by simp [fupd, hone])
            rw [fupd, if_pos rfl, hone] at hle
            omega
          have hdis : (applyEvent s (.closeC d)).disconnects d = s.disconnects d + 1 := by
            rw [applyEvent_closeC_of_one s d hone]; simp
          rw [hdis, hfu, hcons, hcl0, hone]
          norm_num
        · have hdis : (applyEvent s (.closeC d)).disconnects d = s.disconnects d := by
            rw [applyEvent_closeC_of_ge_two s d h2]
          rw [hdis, hfu, hcons]
          have hiff : ((closesFor d r : Int) = s.counts d - 1 ∧ 1 ≤ s.counts d - 1)
              ↔ (((closesFor d r + 1 : Nat) : Int) = s.counts d ∧ 1 ≤ s.counts d) := by
            push_cast
            constructor <;> intro h <;> exact ⟨by omega, by omega⟩
          by_cases hcond : (closesFor d r : Int) = s.counts d - 1 ∧ 1 ≤ s.counts d - 1
          · rw [if_pos hcond, if_pos (hiff.1 hcond)]
          · rw [if_neg hcond, if_neg (fun h => hcond (hiff.2 h))]
      · have hdis : (applyEvent s (.closeC x)).disconnects d = s.disconnects d :=
          applyEvent_disconnects_closeC_ne s x d hdx
        have hcnt : (applyEvent s (.closeC x)).counts d = s.counts d := by
          rw [hcntc]; simp [fupd, hdx]
        have hne : ¬ (ConnEvent.closeC x = ConnEvent.closeC d) := by
          intro h; exact hdx (by cases h; rfl)
        have hcons : closesFor d (ConnEvent.closeC x :: r) = closesFor d r := by
          simp [closesFor, List.countP_cons, hne]
        rw [hdis, hcnt, hcons]

/-- A valid trace splits: the first part is valid, and the rest is valid
from the refcount table the first part produces. -/
theorem validFrom_append (t₁ : List ConnEvent) :
    ∀ (t₂ : List ConnEvent) (c : Nat → Int) (dis : Nat → Nat),
      validFrom c (t₁ ++ t₂) = true →
      validFrom c t₁ = true
        ∧ validFrom (t₁.foldl applyEvent ⟨c, dis⟩).counts t₂ = true := by
  induction t₁ with
  | nil => intro t₂ c dis hv; exact ⟨rfl, by simpa using hv⟩
  | cons e r ih =>
    intro t₂ c dis hv
    cases e with
    | openC x =>
      have hv' : validFrom (fupd c x (c x + 1)) (r ++ t₂) = true := by
        simpa [validFrom] using hv
      have := ih t₂ (fupd c x (c x + 1)) dis hv'
      refine ⟨by simpa [validFrom] using this.1, ?_⟩
      rw [List.foldl_cons, applyEvent_openC]
      exact this.2
    | closeC x =>
      have h1 : 1 ≤ c x := by
        have := hv; simp only [List.cons_append] at this
        simp [validFrom, Bool.and_eq_true] at this; exact this.1
      have hv' : validFrom (fupd c x (c x - 1)) (r ++ t₂) = true := by
        have := hv; simp only [List.cons_append] at this
        simp [validFrom, Bool.and_eq_true] at this; exact this.2
      have hs : applyEvent ⟨c, dis⟩ (.closeC x)
          = (⟨fupd c x (c x - 1),
              (applyEvent ⟨c, dis⟩ (.closeC x)).disconnects⟩ : ConnState) := by
        have hcc := applyEvent_closeC_counts ⟨c, dis⟩ x h1
        cases hA : applyEvent ⟨c, dis⟩ (.closeC x) with
        | mk cc dd => simp at hcc ⊢; rw [← hcc, hA]
      have := ih t₂ (fupd c x (c x - 1))
        (applyEvent ⟨c, dis⟩ (.closeC x)).disconnects hv'
      refine ⟨?_, ?_⟩
      · simp [validFrom, Bool.and_eq_true]
        exact ⟨h1, this.1⟩
      · rw [List.foldl_cons, hs]
        exact this.2

theorem closesFor_eq_zero_of_not_mem (t : List ConnEvent) (d : Nat)
    (h : ConnEvent.closeC d ∉ t) : closesFor d t = 0 := by
  rw [closesFor, List.countP_eq_zero]
  intro a ha hp
  simp at hp
  exact h (hp ▸ ha)

/-- C2: under any valid interleaving of constructions and releases,
(1) the shared per-device refcount always equals the number of currently
open Connections to that device (opens minus closes, in whatever order they
happened); (2) each construction increments it by exactly one; (3) a release
invokes `adb_disconnect` exactly when the count transitions from 1 to 0;
(4) for `N` Connections constructed against `d` and then all released in any
order (interleaved arbitrarily with traffic for other devices),
`adb_disconnect` for `d` is invoked exactly once (and never when `N = 0`). -/
theorem adb_refcount_lifecycle (t t₁ t₂ : List ConnEvent) (d : Nat)
    (hv : validTrace t = true) :
    ((runTrace t).counts d = (opensFor d t : Int) - closesFor d t)
      ∧ ((runTrace (t ++ [ConnEvent.openC d])).counts d = (runTrace t).counts d + 1)
      ∧ (validTrace (t ++ [ConnEvent.closeC d]) = true →
          (runTrace (t ++ [ConnEvent.closeC d])).disconnects d
            = (runTrace t).disconnects d
              + (if (runTrace t).counts d = 1 then 1 else 0))
      ∧ (t = t₁ ++ t₂ → ConnEvent.closeC d ∉ t₁ → ConnEvent.openC d ∉ t₂ →
          closesFor d t₂ = opensFor d t₁ →
          (runTrace t).disconnects d = if opensFor d t₁ = 0 then 0 else 1) := by
  have hinit : initConnState = (⟨fun _ => 0, fun _ => 0⟩ : ConnState) := rfl
  refine ⟨?_, ?_, ?_, ?_⟩
  · have := foldl_counts t (fun _ => 0) (fun _ => 0) d hv
    rw [runTrace, hinit, this]
    simp
  · rw [runTrace, runTrace, List.foldl_append, List.foldl_cons, List.foldl_nil,
      applyEvent_openC]
    simp [fupd]
  · intro hv2
    have hmid := validFrom_append t [ConnEvent.closeC d] (fun _ => 0) (fun _ => 0) hv2
    have h1 : 1 ≤ (runTrace t).counts d := by
      have := hmid.2
      rw [← hinit, ← runTrace] at this
      simp [validFrom, Bool.and_eq_true] at this
      exact this
    rw [runTrace, List.foldl_append, List.foldl_cons, List.foldl_nil, ← runTrace]
    rcases lt_or_le ((runTrace t).counts d) 2 with h2 | h2
    · have hone : (runTrace t).counts d = 1 := by omega
      rw [applyEvent_closeC_of_one _ d hone]
      simp [hone]
    · rw [applyEvent_closeC_of_ge_two _ d h2]
      have : (runTrace t).counts d ≠ 1 := by omega
      simp [this]
  · intro ht hcl hop hbal
    subst ht
    have hmid := validFrom_append t₁ t₂ (fun _ => 0) (fun _ => 0) hv
    have hc1 : (t₁.foldl applyEvent initConnState).counts d = (opensFor d t₁ : Int) := by
      have := foldl_counts t₁ (fun _ => 0) (fun _ => 0) d hmid.1
      rw [hinit, this, closesFor_eq_zero_of_not_mem t₁ d hcl]
      simp
    have hd0 : (t₁.foldl applyEvent initConnState).disconnects d = 0 :=
      foldl_disconnects_no_close t₁ initConnState d hcl
    have hdrain := foldl_drain t₂ (t₁.foldl applyEvent initConnState) d
      (by rw [hinit]; exact hmid.2) hop
    rw [runTrace, List.foldl_append, hdrain, hd0, hc1, hbal]
    by_cases hz : opensFor d t₁ = 0
    · simp [hz]
    · have : 1 ≤ (opensFor d t₁ : Int) := by
        have : 0 < opensFor d t₁ := Nat.pos_of_ne_zero hz
        exact_mod_cast this
      simp [hz, this]

/-- Witness for C2 at the trace
`open 0, open 0, open 1, close 0, close 1, close 0`: refcount of device 0 is
opens minus closes at every point and exactly one disconnect fires for
device 0 after both its Connections are released, with device 1's own single
disconnect accounted separately. -/
theorem adb_refcount_lifecycle_witness :
    validTrace [ConnEvent.openC 0, ConnEvent.openC 0, ConnEvent.openC 1,
        ConnEvent.closeC 0, ConnEvent.closeC 1, ConnEvent.closeC 0] = true
      ∧ (runTrace [ConnEvent.openC 0, ConnEvent.openC 0, ConnEvent.openC 1,
          ConnEvent.closeC 0, ConnEvent.closeC 1, ConnEvent.closeC 0]).disconnects 0
        = if opensFor 0 [ConnEvent.openC 0, ConnEvent.openC 0, ConnEvent.openC 1] = 0
            then 0 else 1 :=
  ⟨by decide,
    (adb_refcount_lifecycle
      [ConnEvent.openC 0, ConnEvent.openC 0, ConnEvent.openC 1,
        ConnEvent.closeC 0, ConnEvent.closeC 1, ConnEvent.closeC 0]
      [ConnEvent.openC 0, ConnEvent.openC 0, ConnEvent.openC 1]
      [ConnEvent.closeC 0, ConnEvent.closeC 1, ConnEvent.closeC 0]
      0 (by decide)).2.2.2 rfl (by decide) (by decide) (by decide)⟩

/-- Pointwise update of the tri-state `_connected_as_root` table
(`None` = unknown, `some true/false` = cached root status). -/
def fupdO (c : Nat → Option Bool) (d : Nat) (v : Option Bool) : Nat → Option Bool :=
  fun x => if x = d then v else c x

/-- Outcome of the `adb_command(self.device, cmd, timeout=30, ...)` transport
call inside `_adb_root`: either captured output, or a
`subprocess.CalledProcessError` carrying `e.output`. -/
inductive AdbCmdResult
  | ok (out : List Char)
  | err (out : List Char)
deriving DecidableEq

/-- Outcome of `AdbConnection._adb_root`: the busy `AdbRootError` raised
before any transport action, the escalation `AdbRootError` raised on a
non-tolerated failure, or success returning `was_rooted`. -/
inductive RootResult
  | busy
  | escalationError
  | success (wasRooted : Bool)
deriving DecidableEq

/-- The failure text `_adb_root` tolerates: `is_rooted(out)`. -/
def rootedMsg : List Char := "adbd is already running as root".toList

/-- The success-output text that forces an escalation error. -/
def productionMsg : List Char := "cannot run as root in production builds".toList

/-- Model of `AdbConnection._adb_root` (android.py lines 427-452) for device
`d` with requested state `enable`, given the shared refcount table `counts`,
the shared root-status cache `root`, and the transport outcome `cmd` of the
`root`/`unroot` adb command.  Returns the result together with the updated
root-status cache.  When more than one connection is active the function
raises before consuming `cmd` (the result is independent of it: no transport
action is performed). -/
def adb_root_step (counts : Nat → Int) (root : Nat → Option Bool) (d : Nat)
    (enable : Bool) (cmd : AdbCmdResult) : RootResult × (Nat → Option Bool) :=
  if 1 < counts d then (.busy, root)
  else
    match cmd with
    | .err out =>
      if containsSub rootedMsg out then (.success true, fupdO root d (some enable))
      else (.escalationError, root)
    | .ok out =>
      if containsSub productionMsg out then (.escalationError, root)
      else (.success (containsSub rootedMsg out), fupdO root d (some enable))

/-- C5: the root toggle is allowed only when the active-connection count for
the device is ≤ 1 at call time; with more than one active connection it
fails with the resource-busy `AdbRootError`, performs no transport action
(the outcome is the same whatever the transport would have answered) and
leaves the cached per-device root status unchanged; and when the count is
≤ 1 the busy error is never raised. -/
theorem adb_root_busy_check (counts : Nat → Int) (root : Nat → Option Bool)
    (d : Nat) (enable : Bool) (cmd : AdbCmdResult) :
    (1 < counts d → adb_root_step counts root d enable cmd = (.busy, root))
      ∧ (¬ 1 < counts d → (adb_root_step counts root d enable cmd).1 ≠ .busy) := by
  constructor
  · intro h
    simp [adb_root_step, h]
  · intro h
    simp only [adb_root_step, if_neg h]
    cases cmd with
    | ok out =>
      by_cases hp : containsSub productionMsg out = true <;> simp [hp]
    | err out =>
      by_cases hm : containsSub rootedMsg out = true <;> simp [hm]

/-- Witness for C5: with two active connections the toggle is rejected as
busy with the cache untouched; with one it is not. -/
theorem adb_root_busy_check_witness :
    adb_root_step (fun _ => 2) (fun _ => none) 0 true (.ok []) = (.busy, fun _ => none)
      ∧ (adb_root_step (fun _ => 1) (fun _ => none) 0 true (.ok [])).1 ≠ .busy :=
  ⟨(adb_root_busy_check (fun _ => 2) (fun _ => none) 0 true (.ok [])).1 (by norm_num),
    (adb_root_busy_check (fun _ => 1) (fun _ => none) 0 true (.ok [])).2 (by norm_num)⟩

/-- C6 (counterexample): toleration of a failed toggle does not depend on the
requested direction: with a single active connection, a failed `unroot`
(`enable = false`) whose failure text is `"adbd is already running as root"`
— the message describing the *rooted* state, i.e. the opposite of the
requested target state — is tolerated exactly like a failed `root`, raising
no error and caching the requested state. -/
theorem adb_root_tolerate_cex :
    (adb_root_step (fun _ => 1) (fun _ => none) 0 false (.err rootedMsg)).1
        = .success true
      ∧ (adb_root_step (fun _ => 1) (fun _ => none) 0 false (.err rootedMsg)).2 0
        = some false
      ∧ (adb_root_step (fun _ => 1) (fun _ => none) 0 true (.err rootedMsg)).1
        = .success true := by
  refine ⟨by decide, by decide, by decide⟩

/-- C6 (amended): for a toggle invocation that passes the busy check, a
failure of the toggle command is tolerated (treated as success with
`was_rooted = true`) iff the failure text contains
`"adbd is already running as root"` — irrespective of the requested
direction; any other failure, and a success whose output contains
`"cannot run as root in production builds"`, raises the stable escalation
`AdbRootError` and leaves the cache unchanged; on success the shared
per-device cached root status is set to the requested state. -/
theorem adb_root_toggle (counts : Nat → Int) (root : Nat → Option Bool)
    (d : Nat) (enable : Bool) (out : List Char) (hc : ¬ 1 < counts d) :
    (containsSub rootedMsg out = true →
        adb_root_step counts root d enable (.err out)
          = (.success true, fupdO root d (some enable)))
      ∧ (containsSub rootedMsg out = false →
        adb_root_step counts root d enable (.err out) = (.escalationError, root))
      ∧ (containsSub productionMsg out = true →
        adb_root_step counts root d enable (.ok out) = (.escalationError, root))
      ∧ (containsSub productionMsg out = false →
        adb_root_step counts root d enable (.ok out)
          = (.success (containsSub rootedMsg out), fupdO root d (some enable))) := by
  refine ⟨fun h => ?_, fun h => ?_, fun h => ?_, fun h => ?_⟩ <;>
    simp [adb_root_step, hc, h]

/-- Witness for C6's amended theorem: a failed `root` toggle with the
tolerated message succeeds and caches root status `true` for the device. -/
theorem adb_root_toggle_witness :
    (adb_root_step (fun _ => 1) (fun _ => none) 0 true (.err rootedMsg)).1
        = .success true
      ∧ (adb_root_step (fun _ => 1) (fun _ => none) 0 true (.err rootedMsg)).2 0
        = some true :=
  ⟨by rw [(adb_root_toggle (fun _ => 1) (fun _ => none) 0 true rootedMsg
      (by norm_num)).1 (by decide)],
    by rw [(adb_root_toggle (fun _ => 1) (fun _ => none) 0 true rootedMsg
      (by norm_num)).1 (by decide)]; rfl⟩

/-- Auxiliary for `pySplitWs`: accumulates the current token reversed. -/
def splitWsAux : List Char → List Char → List (List Char)
  | [], acc => if acc.isEmpty then [] else [acc.reverse]
  | c :: rest, acc =>
    if pyIsSpace c then
      if acc.isEmpty then splitWsAux rest []
      else acc.reverse :: splitWsAux rest []
    else splitWsAux rest (c :: acc)

/-- Models Python `s.split()` (no argument): split on runs of whitespace,
producing no empty tokens. -/
def pySplitWs (s : List Char) : List (List Char) :=
  splitWsAux s []

/-- Models `max(map(int, pids.split()))` from `adb_background_shell`:
`none` when the token list is empty or some token is not a number (the
`ValueError` that the retry loop catches), otherwise the numerically highest
process id. -/
def parsePids (s : List Char) : Option Nat :=
  let toks := pySplitWs s
  if toks.isEmpty then none
  else if toks.all pyIsDigit then some ((toks.map digitsToNat).foldl max 0)
  else none

/-- Outcome of one discovery attempt `conn.execute(find_pid, as_root=...)`:
a raised `TargetStableError` (or subclass), any other raised exception, or
the captured `pids` text. -/
inductive AttemptOutcome
  | stableErr
  | otherErr
  | output (s : List Char)
deriving DecidableEq

/-- Outcome of the PID discovery loop of `adb_background_shell` (android.py
lines 704-720): success with the chosen pid and the number of ~10 ms
backoff sleeps performed, an immediately re-raised stable error, or the
`TargetTransientError` raised after exhausting all attempts. -/
inductive BgOutcome
  | ok (pid : Nat) (sleeps : Nat)
  | stableRaise
  | transientExhausted (msg : List Char) (sleeps : Nat)
deriving DecidableEq

/-- The message of the exhaustion `TargetTransientError`, naming the
original command. -/
def bgMsg (orig : List Char) : List Char :=
  "Could not detect PID of background command: ".toList ++ orig

/-- The backoff between discovery attempts, `time.sleep(10e-3)`, in
milliseconds. -/
def bgBackoffMs : Nat := 10

/-- An attempt outcome the loop retries on: any non-stable exception, or an
output with no parseable pid tokens (`max` raising `ValueError`). -/
def isRetryable : AttemptOutcome → Bool
  | .stableErr => false
  | .otherErr => true
  | .output s => (parsePids s).isNone

/-- The discovery loop: `fuel` remaining iterations of `for _ in range(5)`,
`i` the index of the current attempt, `sleeps` backoffs performed so far. -/
def bgAux (att : Nat → AttemptOutcome) (orig : List Char) :
    Nat → Nat → Nat → BgOutcome
  | 0, _, sleeps => .transientExhausted (bgMsg orig) sleeps
  | fuel + 1, i, sleeps =>
    match att i with
    | .stableErr => .stableRaise
    | .otherErr => bgAux att orig fuel (i + 1) (sleeps + 1)
    | .output s =>
      match parsePids s with
      | none => bgAux att orig fuel (i + 1) (sleeps + 1)
      | some p => .ok p sleeps

/-- Model of the PID discovery phase of `adb_background_shell`, driven by
the per-attempt outcomes `att` of the synchronous `find_pid` queries. -/
def adb_background_shell (att : Nat → AttemptOutcome) (orig : List Char) : BgOutcome :=
  bgAux att orig 5 0 0

theorem bgAux_skip (att : Nat → AttemptOutcome) (orig : List Char) :
    ∀ (n fuel i sleeps : Nat), n ≤ fuel →
      (∀ j, i ≤ j → j < i + n → isRetryable (att j) = true) →
      bgAux att orig fuel i sleeps = bgAux att orig (fuel - n) (i + n) (sleeps + n) := by
  intro n
  induction n with
  | zero => intro fuel i sleeps _ _; simp
  | succ m ih =>
    intro fuel i sleeps hle hretry
    obtain ⟨f, rfl⟩ : ∃ f, fuel = f + 1 :=
      ⟨fuel - 1, by omega⟩
    have hi : isRetryable (att i) = true :=
      hretry i le_rfl (by omega)
    have hstep : bgAux att orig (f + 1) i sleeps
        = bgAux att orig f (i + 1) (sleeps + 1) := by
      cases hA : att i with
      | stableErr => rw [hA] at hi; simp [isRetryable] at hi
      | otherErr => simp [bgAux, hA]
      | output s =>
        rw [hA] at hi
        simp only [isRetryable, Option.isNone_iff_eq_none] at hi
        simp [bgAux, hA, hi]
    rw [hstep, ih f (i + 1) (sleeps + 1) (by omega)
      (fun j hj1 hj2 => hretry j (by omega) (by omega))]
    have e1 : f - m = f + 1 - (m + 1) := by omega
    have e2 : i + 1 + m = i + (m + 1) := by omega
    have e3 : sleeps + 1 + m = sleeps + (m + 1) := by omega
    rw [e1, e2, e3]

/-- C3 (amended): in the background-launch PID discovery loop, an attempt
whose `find_pid` query raised a non-stable exception or returned text with
no parseable pid tokens is retried after the ~10 ms backoff; if the first
`K < 5` attempts are such failures and attempt `K+1` yields parseable pids,
the launch succeeds with the numerically highest discovered id after `K`
backoffs; if all 5 attempts are such failures, a `TargetTransientError`
naming the original command is raised; but an attempt raising a stable
error (`TargetStableError` or subclass, e.g. a nonzero exit of the
discovery command itself) aborts the loop immediately, propagating the
stable error. -/
theorem adb_background_pid_discovery (att : Nat → AttemptOutcome)
    (orig s : List Char) (K p : Nat) :
    (K < 5 → (∀ j < K, isRetryable (att j) = true) → att K = .output s →
      parsePids s = some p → adb_background_shell att orig = .ok p K)
      ∧ ((∀ j < 5, isRetryable (att j) = true) →
        adb_background_shell att orig = .transientExhausted (bgMsg orig) 5)
      ∧ (bgMsg orig = "Could not detect PID of background command: ".toList ++ orig)
      ∧ (att 0 = .stableErr → adb_background_shell att orig = .stableRaise)
      ∧ bgBackoffMs = 10 := by
  refine ⟨?_, ?_, rfl, ?_, rfl⟩
  · intro hK hretry hout hpid
    have hskip := bgAux_skip att orig K 5 0 0 (by omega)
      (fun j hj1 hj2 => hretry j (by omega))
    rw [adb_background_shell, hskip]
    obtain ⟨m, hm⟩ : ∃ m, 5 - K = m + 1 := ⟨5 - K - 1, by omega⟩
    rw [hm]
    simp [bgAux, hout, hpid]
  · intro hretry
    have hskip := bgAux_skip att orig 5 5 0 0 le_rfl
      (fun j hj1 hj2 => hretry j (by omega))
    rw [adb_background_shell, hskip]
    rfl
  · intro h0
    simp [adb_background_shell, bgAux, h0]

/-- Witness for C3's amended theorem: two empty-listing attempts followed by
a listing with pids 12 and 34 succeeds with pid 34 after two backoffs; five
empty attempts raise the transient exhaustion error. -/
theorem adb_background_pid_discovery_witness :
    adb_background_shell
        (fun i => if i < 2 then .otherErr else .output "12 34".toList)
        "sleep 10".toList = .ok 34 2
      ∧ adb_background_shell (fun _ => .output [] ) "sleep 10".toList
        = .transientExhausted (bgMsg "sleep 10".toList) 5 :=
  ⟨(adb_background_pid_discovery
      (fun i => if i < 2 then .otherErr else .output "12 34".toList)
      "sleep 10".toList "12 34".toList 2 34).1
      (by norm_num) (by decide) (by decide) (by decide),
    (adb_background_pid_discovery (fun _ => .output []) "sleep 10".toList
      [] 0 0).2.1 (by decide)⟩

/-- C3 (counterexample): a first discovery attempt that raises a stable
error is not retried and is not reclassified: the loop re-raises it as a
stable error, so not every discovery failure is transient. -/
theorem adb_background_pid_discovery_cex :
    adb_background_shell (fun _ => .stableErr) "sleep 10".toList = .stableRaise
      ∧ adb_background_shell (fun _ => .stableErr) "sleep 10".toList
        ≠ .transientExhausted (bgMsg "sleep 10".toList) 5 := by
  refine ⟨rfl, by decide⟩

/-- Models `line.split('\t')[0]`: the characters before the first tab. -/
def splitTabHead : List Char → List Char
  | [] => []
  | c :: rest => if c = '\t' then [] else c :: splitTabHead rest

/-- Outcome of `adb_get_device` (android.py lines 508-541): the discovered
serial, the `HostError` naming the number of devices when more than one is
attached, the `HostError` raised when the timeout elapses with no device,
or the `TypeError` from evaluating `timeout < time.time() - start` with the
default `timeout=None` (which is what `AdbConnection.__init__` passes when
the caller supplied neither device nor timeout).  `fuelOut` is an artifact
of the bounded model and is proved unreachable for the fuel used. -/
inductive GetDeviceResult
  | device (name : List Char)
  | ambiguous (count : Nat)
  | noDevice
  | typeErrorNoneTimeout
  | fuelOut
deriving DecidableEq

/-- One polling iteration of `adb_get_device`.  `outputs i` is the
`splitlines()` of the `adb devices` output observed on iteration `i`;
elapsed wall time at iteration `i` is modelled as `i` (the loop sleeps 1 s
between iterations).  A 3-line output means exactly one attached device;
more lines mean several; fewer mean none. -/
def getDeviceLoop (outputs : Nat → List (List Char)) (timeout : Option Nat) :
    Nat → Nat → GetDeviceResult
  | 0, _ => .fuelOut
  | fuel + 1, i =>
    let out := outputs i
    if out.length = 3 then .device (splitTabHead (out.getD 1 []))
    else if 3 < out.length then .ambiguous (out.length - 2)
    else
      match timeout with
      | none => .typeErrorNoneTimeout
      | some t => if t < i then .noDevice else getDeviceLoop outputs timeout fuel (i + 1)

/-- Model of `adb_get_device`, with fuel sufficient for the whole polling
window (`timeout + 2` iterations; a `None` timeout cannot get past the
first iteration). -/
def adb_get_device (outputs : Nat → List (List Char)) (timeout : Option Nat) :
    GetDeviceResult :=
  getDeviceLoop outputs timeout (match timeout with | none => 1 | some t => t + 2) 0

theorem getDeviceLoop_skip (outputs : Nat → List (List Char)) (t : Nat) :
    ∀ (n fuel i : Nat), n ≤ fuel →
      (∀ m, i ≤ m → m < i + n → (outputs m).length < 3 ∧ m ≤ t) →
      getDeviceLoop outputs (some t) fuel i
        = getDeviceLoop outputs (some t) (fuel - n) (i + n) := by
  intro n
  induction n with
  | zero => intro fuel i _ _; simp
  | succ m ih =>
    intro fuel i hle hpass
    obtain ⟨f, rfl⟩ : ∃ f, fuel = f + 1 := ⟨fuel - 1, by omega⟩
    obtain ⟨hlen, hit⟩ := hpass i le_rfl (by omega)
    have hne3 : ¬ (outputs i).length = 3 := by omega
    have hngt : ¬ 3 < (outputs i).length := by omega
    have hnt : ¬ t < i := by omega
    have hstep : getDeviceLoop outputs (some t) (f + 1) i
        = getDeviceLoop outputs (some t) f (i + 1) := by
      simp [getDeviceLoop, hne3, hngt, hnt]
    rw [hstep, ih f (i + 1) (by omega)
      (fun j hj1 hj2 => hpass j (by omega) (by omega))]
    have e1 : f - m = f + 1 - (m + 1) := by omega
    have e2 : i + 1 + m = i + (m + 1) := by omega
    rw [e1, e2]

/-- C9: device auto-discovery with a numeric timeout: (1) a listing with
more than one attached device fails immediately with the environment error
naming the number of devices found (`output_length - 2`), whatever the
timeout; (2) if the listing shows no device for the first `j ≤ t` polls and
exactly one device on poll `j`, that device's serial (the text before the
tab on the listing's second line) is returned; (3) if no poll ever shows a
device (and none shows several), the no-device environment error is raised
once the timeout has elapsed. -/
theorem adb_get_device_discovery (outputs : Nat → List (List Char)) (t j : Nat) :
    (3 < (outputs 0).length →
      adb_get_device outputs (some t) = .ambiguous ((outputs 0).length - 2))
      ∧ ((∀ i < j, (outputs i).length < 3) → j ≤ t → (outputs j).length = 3 →
        adb_get_device outputs (some t)
          = .device (splitTabHead ((outputs j).getD 1 [])))
      ∧ ((∀ i, (outputs i).length < 3) →
        adb_get_device outputs (some t) = .noDevice) := by
  refine ⟨?_, ?_, ?_⟩
  · intro hgt
    have hne3 : ¬ (outputs 0).length = 3 := by omega
    simp [adb_get_device, getDeviceLoop, hne3, hgt]
  · intro hsmall hjt hj3
    have hskip := getDeviceLoop_skip outputs t j (t + 2) 0 (by omega)
      (fun m hm1 hm2 => ⟨hsmall m (by omega), by omega⟩)
    rw [adb_get_device, hskip]
    obtain ⟨f, hf⟩ : ∃ f, t + 2 - j = f + 1 := ⟨t + 2 - j - 1, by omega⟩
    rw [hf]
    simp [getDeviceLoop, hj3]
  · intro hsmall
    have hskip := getDeviceLoop_skip outputs t (t + 1) (t + 2) 0 (by omega)
      (fun m hm1 hm2 => ⟨hsmall m, by omega⟩)
    rw [adb_get_device, hskip]
    rw [show t + 2 - (t + 1) = 1 from by omega]
    simp only [Nat.zero_add]
    have hl := hsmall (t + 1)
    have hne3 : ¬ (outputs (t + 1)).length = 3 := by omega
    have hngt : ¬ 3 < (outputs (t + 1)).length := by omega
    have hnt : t < t + 1 := by omega
    simp [getDeviceLoop, hne3, hngt, hnt]

/-- Witness for C9: a first empty poll, then a poll listing exactly one
device `serial1` returns `serial1`; a permanently empty listing with
timeout 2 raises the no-device error; a four-line listing (two devices)
fails naming 2 devices. -/
theorem adb_get_device_discovery_witness :
    adb_get_device
        (fun i => if i = 0 then ["List of devices attached".toList, []]
          else ["List of devices attached".toList, "serial1\tdevice".toList, []])
        (some 3)
        = .device "serial1".toList
      ∧ adb_get_device (fun _ => [[], []]) (some 2) = .noDevice
      ∧ adb_get_device
        (fun _ => ["List of devices attached".toList, "a\tdevice".toList,
          "b\tdevice".toList, []]) (some 3) = .ambiguous 2 := by
  refine ⟨?_, ?_, ?_⟩
  · have h := (adb_get_device_discovery
      (fun i => if i = 0 then ["List of devices attached".toList, []]
        else ["List of devices attached".toList, "serial1\tdevice".toList, []])
      3 1).2.1 (by decide) (by norm_num) (by norm_num)
    rw [h]
    decide
  · exact (adb_get_device_discovery (fun _ => [[], []]) 2 0).2.2
      (fun i => by norm_num)
  · have h := (adb_get_device_discovery
      (fun _ => ["List of devices attached".toList, "a\tdevice".toList,
        "b\tdevice".toList, []]) 3 0).1 (by norm_num)
    rw [h]
    decide

/-- C10: with the default `timeout=None` — as passed by
`AdbConnection.__init__` when the caller supplies neither device nor
timeout — a poll showing zero attached devices reaches the comparison of
`None` against the elapsed time and fails with a `TypeError`, neither
polling on nor raising the documented no-device error; with any numeric
timeout the same zero-device situation instead terminates with the
no-device environment error once the timeout elapses. -/
theorem adb_get_device_none_timeout (outputs : Nat → List (List Char)) (t : Nat) :
    ((outputs 0).length < 3 → adb_get_device outputs none = .typeErrorNoneTimeout)
      ∧ ((∀ i, (outputs i).length < 3) → adb_get_device outputs (some t) = .noDevice) := by
  constructor
  · intro hlen
    have hne3 : ¬ (outputs 0).length = 3 := by omega
    have hngt : ¬ 3 < (outputs 0).length := by omega
    simp [adb_get_device, getDeviceLoop, hne3, hngt]
  · intro hsmall
    have hskip := getDeviceLoop_skip outputs t (t + 1) (t + 2) 0 (by omega)
      (fun m hm1 hm2 => ⟨hsmall m, by omega⟩)
    rw [adb_get_device, hskip]
    rw [show t + 2 - (t + 1) = 1 from by omega]
    simp only [Nat.zero_add]
    have hl := hsmall (t + 1)
    have hne3 : ¬ (outputs (t + 1)).length = 3 := by omega
    have hngt : ¬ 3 < (outputs (t + 1)).length := by omega
    have hnt : t < t + 1 := by omega
    simp [getDeviceLoop, hne3, hngt, hnt]

/-- Witness for C10: a permanently empty device listing crashes with the
`TypeError` under `timeout=None` and raises the no-device error under
timeout 2. -/
theorem adb_get_device_none_timeout_witness :
    adb_get_device (fun _ => [[], []]) none = .typeErrorNoneTimeout
      ∧ adb_get_device (fun _ => [[], []]) (some 2) = .noDevice :=
  ⟨(adb_get_device_none_timeout (fun _ => [[], []]) 2).1 (by norm_num),
    (adb_get_device_none_timeout (fun _ => [[], []]) 2).2 (fun i => by norm_num)⟩

end DevlibAndroid
